import Mathlib

set_option maxHeartbeats 1000000

/-!
Verification development for the CINN repository: a shallow embedding of the
per-task auto-tuning core (cinn/auto_schedule/task/task_optimizer.h) together
with the HLIR sort/argsort operators (cinn/hlir/op/contrib/sort.cc) and the
framework tensor type dispatch (cinn/hlir/framework/tensor.cc), and theorems
settling the frozen claims about them.

Where only a declaration of a routine is available in the sources (the
task-optimizer implementation file is not present, only its header), the
corresponding definition is modelled from the specification and is marked
`Modelled from the spec:` in its doc comment.
-/

namespace CinnVerify

/-! ## Symbolic IR expressions (cinn/ir), as used by hlir/op/contrib/sort.cc

The `Compute` bodies in sort.cc build expression trees out of shape
components, index variables, integer arithmetic, `common::AutoSimplify` and
`lang::CallExtern`.  `AutoSimplify` and the extern calls are kept as
uninterpreted constructors: sort.cc never inspects their results, so two
tensors built by sort.cc are equal exactly when the unsimplified trees are. -/

/-- Symbolic expression tree for tensor compute bodies.  `idx i` stands for
the i-th index variable handed to the `Compute` lambda, `tens s` for a whole
tensor argument named `s`, `access s l` for the element access `s(l)`,
`autoSimp` for `common::AutoSimplify` and `extCall` for `lang::CallExtern`. -/
inductive SExpr : Type where
  | lit : Int → SExpr
  | idx : Nat → SExpr
  | tens : String → SExpr
  | add : SExpr → SExpr → SExpr
  | mul : SExpr → SExpr → SExpr
  | autoSimp : SExpr → SExpr
  | access : String → List SExpr → SExpr
  | extCall : String → List SExpr → SExpr

/-- Hardware targets distinguished by sort.cc: `common::Target::Arch`. -/
inductive Arch : Type where
  | NVGPU
  | X86
  | Other
deriving DecidableEq

/-- A tensor produced by `Compute`: a name, a shape, and the body obtained by
applying the compute lambda to the canonical index variables `idx 0 ...`. -/
structure TensorIR where
  name : String
  shape : List SExpr
  body : SExpr

/-- The canonical index vector `[idx 0, ..., idx (r-1)]` that `Compute`
passes to its lambda for a rank-`r` tensor. -/
def canonIdx (r : Nat) : List SExpr :=
  (List.range r).map SExpr.idx

/-- The offset/stride accumulation loop shared by both `Compute` lambdas in
`ArgSort` (sort.cc lines 77-93 and 98-117): iterate `i` over the indices,
folding the offset over every dimension (skipping the index at `pos_axis`)
and the stride over the dimensions after `pos_axis`. -/
def offsetStrideAux (shape : List SExpr) (pos_axis : Int) (r : Nat) : SExpr × SExpr :=
  (List.range r).foldl
    (fun acc (i : Nat) =>
      if (i : Int) < pos_axis then
        (SExpr.add (SExpr.mul acc.1 (shape.getD i (SExpr.lit 0))) (SExpr.idx i), acc.2)
      else if (i : Int) = pos_axis then
        (SExpr.mul acc.1 (shape.getD i (SExpr.lit 0)), acc.2)
      else
        (SExpr.add (SExpr.mul acc.1 (shape.getD i (SExpr.lit 0))) (SExpr.idx i),
         SExpr.mul acc.2 (shape.getD i (SExpr.lit 0))))
    (SExpr.lit 0, SExpr.lit 1)

/-- Negative-axis normalization used identically at the top of `ArgSort` and
`Sort` (sort.cc lines 71-74 and 129-132): `pos_axis = axis;
if (pos_axis < 0) pos_axis += A->shape.size();`. -/
def normAxis (axis : Int) (rank : Nat) : Int :=
  if axis < 0 then axis + (rank : Int) else axis

/-- The per-arch prefix of the index extern function in `ArgSort`. -/
def archIndexBase : Arch → Option String
  | Arch.NVGPU => some "cinn_cuda_"
  | Arch.X86 => some "cinn_host_"
  | Arch.Other => none

/-- The per-arch find extern function name in `ArgSort`; `none` models the
`LOG(FATAL)` branch for unsupported targets. -/
def archFindFunc : Arch → Option String
  | Arch.NVGPU => some "cinn_cuda_find_int_nd"
  | Arch.X86 => some "cinn_host_find_int_nd"
  | Arch.Other => none

/-- Body construction of `ArgSort` once the extern names and the normalized
`pos_axis` are fixed: builds the `positions` helper tensor (`name + "_temp"`,
inserted lazily into the stages) and the result tensor, exactly following the
two `Compute` calls of sort.cc lines 75-120. -/
def ArgSortBody (A : TensorIR) (index_func_name find_func_name : String)
    (pos_axis : Int) (name : String) : TensorIR × TensorIR :=
  let r := A.shape.length
  let inds := canonIdx r
  let A_shape_axis := A.shape.getD pos_axis.toNat (SExpr.lit 0)
  let os1 := offsetStrideAux A.shape pos_axis r
  let positions : TensorIR :=
    { name := name ++ "_temp"
      shape := A.shape
      body := SExpr.extCall index_func_name
        [SExpr.tens A.name, A_shape_axis, SExpr.access A.name inds,
         SExpr.autoSimp os1.1, SExpr.autoSimp os1.2] }
  let os2 := offsetStrideAux A.shape pos_axis r
  let res : TensorIR :=
    { name := name
      shape := A.shape
      body := SExpr.extCall find_func_name
        [SExpr.tens (name ++ "_temp"), A_shape_axis, inds.getD pos_axis.toNat (SExpr.lit 0),
         SExpr.autoSimp os2.1, SExpr.autoSimp os2.2] }
  (res, positions)

/-- `ArgSort` from sort.cc lines 49-121: selects the extern function names by
target (fatal, modelled as `none`, for targets other than X86/NVGPU and by
ascending/descending order), normalizes a negative axis by adding the rank,
and builds the result and `positions` tensors. -/
def ArgSort (A : TensorIR) (target : Arch) (axis : Int) (is_ascend : Bool)
    (name : String) : Option (TensorIR × TensorIR) :=
  match archIndexBase target, archFindFunc target with
  | some index_base, some find_func_name =>
    let index_func_name :=
      index_base ++ (if is_ascend then "lt_num_float" else "gt_num_float")
    some (ArgSortBody A index_func_name find_func_name
      (normAxis axis A.shape.length) name)
  | _, _ => none

/-- `Sort` from sort.cc lines 123-144 (named `SortTensor` here because `Sort`
is reserved in Lean): normalizes a negative axis by adding the rank, calls
`ArgSort` with the already-normalized `pos_axis` and `name + "_index"`, and
gathers `A(A_indices)` where the index at `pos_axis` is replaced by
`sort_index(indices)`.  Returns the result together with the lazily inserted
`sort_index` and `positions` tensors. -/
def SortTensor (A : TensorIR) (target : Arch) (axis : Int) (is_ascend : Bool)
    (name : String) : Option (TensorIR × TensorIR × TensorIR) :=
  let pos_axis := normAxis axis A.shape.length
  match ArgSort A target pos_axis is_ascend (name ++ "_index") with
  | none => none
  | some (sort_index, positions) =>
    let inds := canonIdx A.shape.length
    let A_indices := inds.set pos_axis.toNat (SExpr.access sort_index.name inds)
    some ({ name := name, shape := A.shape, body := SExpr.access A.name A_indices },
      sort_index, positions)

/-! ## Types and dtype inference (cinn/common types, sort.cc, tensor.cc) -/

/-- Kinds of the CINN scalar type lattice.  Modelled from the spec: the
`common::Type` class itself (cinn/common/type.h) is not among the sources;
only the predicates `is_int`, `is_float`, `is_bool` used by tensor.cc are
needed, and CINN represents `bool` as a one-bit unsigned integer. -/
inductive CinnTypeKind : Type where
  | tUnk
  | tInt
  | tUInt
  | tFloat
  | tString
  | tVoid
  | tCustomized
deriving DecidableEq

/-- A CINN scalar type: a kind plus a bit width. -/
structure CinnType where
  kind : CinnTypeKind
  bits : Nat
deriving DecidableEq

/-- `Type::is_int(bits)`. -/
def CinnType.is_int (t : CinnType) (b : Nat) : Bool :=
  t.kind == CinnTypeKind.tInt && t.bits == b

/-- `Type::is_uint(bits)`. -/
def CinnType.is_uint (t : CinnType) (b : Nat) : Bool :=
  t.kind == CinnTypeKind.tUInt && t.bits == b

/-- `Type::is_float(bits)`. -/
def CinnType.is_float (t : CinnType) (b : Nat) : Bool :=
  t.kind == CinnTypeKind.tFloat && t.bits == b

/-- `Type::is_bool()`: a one-bit unsigned integer. -/
def CinnType.is_bool (t : CinnType) : Bool :=
  t.is_uint 1

/-- The `Int(bits)` type constructor helper (`common::Int`). -/
def IntType (b : Nat) : CinnType :=
  { kind := CinnTypeKind.tInt, bits := b }

/-- Attribute maps (`framework::AttrMapType`) as far as dtype inference is
concerned; `InferDtypeForArgSort` ignores its attribute argument entirely. -/
def AttrMap : Type := List (String × Int)

/-- `InferDtypeForArgSort` from sort.cc lines 325-328: the `CHECK_EQ` on the
input arity is modelled as `none`, and otherwise the result is the
one-element list `{Int(32)}`, independent of the input type and attributes. -/
def InferDtypeForArgSort (inputs_type : List CinnType) (attrs : AttrMap) :
    Option (List CinnType) :=
  if inputs_type.length = 1 then some [IntType 32] else none

/-- The slice of the `CINN_REGISTER_OP(argsort)` registration (sort.cc lines
344-351) relevant to dtype inference. -/
structure OpRegistration where
  op_name : String
  num_inputs : Nat
  num_outputs : Nat
  inferDtype : List CinnType → AttrMap → Option (List CinnType)

/-- The registered `argsort` operator: one input, one output, dtype inference
by `InferDtypeForArgSort`. -/
def argsortOp : OpRegistration :=
  { op_name := "argsort"
    num_inputs := 1
    num_outputs := 1
    inferDtype := InferDtypeForArgSort }

/-- The runtime buffer element types assigned by `_Tensor_::set_type`
(tensor.cc lines 23-40). -/
inductive CinnBufferDType : Type where
  | cinn_int32_t
  | cinn_int64_t
  | cinn_float32_t
  | cinn_float64_t
  | cinn_float16_t
  | cinn_bool_t
  | cinn_unk_t
deriving DecidableEq

/-- The observable state of a framework `_Tensor_` as far as `set_type`
touches it: the stored `type_` field and the buffer element type
`buffer_->data()->type`. -/
structure TensorFW where
  type_ : CinnType
  buffer_dtype : CinnBufferDType
deriving DecidableEq

/-- `_Tensor_::set_type` from tensor.cc lines 23-40: stores the argument in
`type_` and dispatches the buffer element type through the if/else chain,
falling back to `cinn_unk_t`.  There is no error branch. -/
def set_type (ten : TensorFW) (type : CinnType) : TensorFW :=
  { type_ := type
    buffer_dtype :=
      if type.is_int 32 then CinnBufferDType.cinn_int32_t
      else if type.is_int 64 then CinnBufferDType.cinn_int64_t
      else if type.is_float 32 then CinnBufferDType.cinn_float32_t
      else if type.is_float 64 then CinnBufferDType.cinn_float64_t
      else if type.is_float 16 then CinnBufferDType.cinn_float16_t
      else if type.is_bool then CinnBufferDType.cinn_bool_t
      else CinnBufferDType.cinn_unk_t }

/-- Dispatch table written from the words of claim C10, to be compared with
the chain inside `set_type`: the matching cinn type for int32, int64,
float32, float64, float16 and bool, and `cinn_unk_t` for every other type. -/
def bufferDTypeSpec (type : CinnType) : CinnBufferDType :=
  match type.kind, type.bits with
  | CinnTypeKind.tInt, 32 => CinnBufferDType.cinn_int32_t
  | CinnTypeKind.tInt, 64 => CinnBufferDType.cinn_int64_t
  | CinnTypeKind.tFloat, 32 => CinnBufferDType.cinn_float32_t
  | CinnTypeKind.tFloat, 64 => CinnBufferDType.cinn_float64_t
  | CinnTypeKind.tFloat, 16 => CinnBufferDType.cinn_float16_t
  | CinnTypeKind.tUInt, 1 => CinnBufferDType.cinn_bool_t
  | _, _ => CinnBufferDType.cinn_unk_t

/-! ## The per-task tuning session (cinn/auto_schedule/task/task_optimizer.h)

Only the class declaration of `TaskOptimizer` is among the sources; the
implementation file is not.  The session loop, its collaborators and the
shared data types below are therefore modelled from the specification
(spec.md sections 3, 4.1, 6 and 7) and each such definition says so in its
doc comment.  The round counter constant `kMaxRetryContinuousEmpty_ = 3`
comes directly from the header. -/

/-- Modelled from the spec: a lowered function has a "stable identity (name,
ordered argument list, return type) and a replaceable body"
(`ir::LoweredFunc`, whose definition is not among the sources). -/
structure LoweredFunc where
  name : String
  args : List String
  ret_type : String
  body : String
deriving DecidableEq

/-- Modelled from the spec: a Search State is "a schedule variant — a
transformed version of the task's computation body plus its
Cost-Model-predicted score" (`SearchState`, not among the sources). -/
structure SearchState where
  body : String
  predicted_cost : Int
deriving DecidableEq

/-- Modelled from the spec: a Measure Input is "{task identity, candidate
lowered function}" (`MeasureInput`, not among the sources). -/
structure MeasureInput where
  task_id : String
  func : LoweredFunc
deriving DecidableEq

/-- Modelled from the spec: a Task is "a task signature, the initial lowered
function(s), and the hardware target descriptor" (`TuneTask`, not among the
sources). -/
structure TuneTask where
  signature : String
  func : LoweredFunc
  target : String
deriving DecidableEq

/-- Modelled from the spec: the recognized Tuning Options fields of section 6
(`TuningOptions`, not among the sources). -/
structure TuningOptions where
  num_rounds : Nat
  population_size : Nat
  measure_quota_per_round : Nat
  mutation_rate : Rat
  crossover_rate : Rat
  enable_warm_start : Bool
deriving DecidableEq

/-- `TaskOptimizer::kMaxRetryContinuousEmpty_` (task_optimizer.h line 52):
"the max retry times if continuously get empty result". -/
def kMaxRetryContinuousEmpty : Nat := 3

/-- Modelled from the spec: the behavior of the external collaborators during
one session.  `search n` is what Evolutionary Search proposes in round `n`
(`EvolutionarySearch`, not among the sources); `pruneInvalid` is the validity
check `TaskOptimizer::PruneInvalid`, declared in the header but implemented
in the missing file, reporting `true` exactly for invalid functions; and
`measureOne n inp` is the Measurer's result for one input of round `n`'s
batch — `some cost` on success, `none` for a compile/runtime/timeout failure.
The Measurer contract (one result per input, in order) is realized by mapping
`measureOne` over the batch. -/
structure TuningEnv where
  search : Nat → List SearchState
  pruneInvalid : LoweredFunc → Bool
  measureOne : Nat → MeasureInput → Option Nat

/-- Modelled from the spec: `TaskOptimizer::FuncWithUpdatedBody` (declared at
task_optimizer.h line 45, implemented in the missing file) rebuilds "a
lowered function with a new body while preserving its signature". -/
def FuncWithUpdatedBody (old_func : LoweredFunc) (body : String) : LoweredFunc :=
  { old_func with body := body }

/-- Modelled from the spec: validation of the Tuning Options at session start
(section 6: `num_rounds` ≥ 1, `population_size` ≥ 1,
`measure_quota_per_round` ≤ `population_size`). -/
def validOptions (options : TuningOptions) : Bool :=
  decide (1 ≤ options.num_rounds) && decide (1 ≤ options.population_size) &&
    decide (options.measure_quota_per_round ≤ options.population_size)

/-- Modelled from the spec: `TaskOptimizer::SearchOneRound` (task_optimizer.h
line 43) for round `n` — ask Evolutionary Search for up to population-size
candidates, rebuild the task's function with each candidate body, drop the
candidates whose rebuilt function fails the validity check, and package the
survivors as Measure Inputs, at most the measurement quota many.  Returns the
surviving states together with the measurement batch. -/
def searchOneRound (env : TuningEnv) (task : TuneTask) (options : TuningOptions)
    (n : Nat) : List SearchState × List MeasureInput :=
  let states := (env.search n).take options.population_size
  let kept := states.filter
    (fun st => !(env.pruneInvalid (FuncWithUpdatedBody task.func st.body)))
  let inputs := (kept.map
    (fun st => { task_id := task.signature
                 func := FuncWithUpdatedBody task.func st.body : MeasureInput })).take
    options.measure_quota_per_round
  (kept, inputs)

/-- The measurement batch of round `n`: the Measure Inputs produced by
`searchOneRound` and handed to the Measurer as one batch. -/
def roundBatch (env : TuningEnv) (task : TuneTask) (options : TuningOptions)
    (n : Nat) : List MeasureInput :=
  (searchOneRound env task options n).2

/-- Modelled from the spec: the successful measurements of round `n` — the
batch results that carry a real cost, paired with the measured function. -/
def roundSuccesses (env : TuningEnv) (task : TuneTask) (options : TuningOptions)
    (n : Nat) : List (LoweredFunc × Nat) :=
  (roundBatch env task options n).filterMap
    (fun inp => (env.measureOne n inp).map (fun cost => (inp.func, cost)))

/-- Round `n` is empty when it produced zero valid, measured candidates. -/
def roundIsEmpty (env : TuningEnv) (task : TuneTask) (options : TuningOptions)
    (n : Nat) : Bool :=
  (roundSuccesses env task options n).isEmpty

/-- The minimum-cost element of a round's successful results. -/
def minByCost : List (LoweredFunc × Nat) → Option (LoweredFunc × Nat)
  | [] => none
  | p :: ps => some (ps.foldl (fun best q => if q.2 < best.2 then q else best) p)

/-- Modelled from the spec: "the round's minimum-cost successful result is
compared to the session's best-so-far and replaces it if lower". -/
def updateBest (best round_best : Option (LoweredFunc × Nat)) :
    Option (LoweredFunc × Nat) :=
  match best, round_best with
  | none, r => r
  | some b, none => some b
  | some b, some r => if r.2 < b.2 then some r else some b

/-- Modelled from the spec: the Database is a store of "task signature →
historical measured candidates and costs" (`Database`, not among the
sources), here a map from signatures to histories. -/
def Database : Type := String → List (String × Nat)

/-- Modelled from the spec: `Insert(task signature, schedule, measured
cost)`: "append; never overwrites or deletes". -/
def Database.Insert (db : Database) (key sched : String) (cost : Nat) : Database :=
  fun q => if q = key then db q ++ [(sched, cost)] else db q

/-- Modelled from the spec: `Lookup(task signature) → ordered history`. -/
def Database.Lookup (db : Database) (key : String) : List (String × Nat) :=
  db key

/-- The mutable state of one tuning session: the number of executed rounds,
the consecutive-empty-round counter, the best-so-far measured result, the
Database, the Cost Model's accumulated training data, and the log of
measurement batches handed to the Measurer. -/
structure SessionState where
  round : Nat
  empty_streak : Nat
  best : Option (LoweredFunc × Nat)
  db : Database
  cost_model_data : List (String × Nat)
  batches : List (List MeasureInput)

/-- Modelled from the spec: one round of the per-round state machine
SEARCH → PRUNE → MEASURE → UPDATE (spec section 4.1): build the batch, map
the Measurer over it, insert the successes into the Database and the Cost
Model's training data, update the best-so-far with the round's minimum-cost
success, and bump or reset the consecutive-empty-round counter. -/
def stepRound (env : TuningEnv) (task : TuneTask) (options : TuningOptions)
    (s : SessionState) : SessionState :=
  let batch := roundBatch env task options s.round
  let successes := roundSuccesses env task options s.round
  { round := s.round + 1
    empty_streak :=
      if roundIsEmpty env task options s.round then s.empty_streak + 1 else 0
    best := updateBest s.best (minByCost successes)
    db := successes.foldl
      (fun d p => Database.Insert d task.signature p.1.body p.2) s.db
    cost_model_data := s.cost_model_data ++ successes.map (fun p => (p.1.body, p.2))
    batches := s.batches ++ [batch] }

/-- Modelled from the spec: the session loop — TERMINATE "when rounds
executed reach the configured maximum, OR when a configurable number (policy
constant, default 3) of consecutive rounds each produce zero valid, measured
candidates — whichever comes first".  The fuel is the number of rounds still
allowed by `num_rounds`. -/
def runRounds (env : TuningEnv) (task : TuneTask) (options : TuningOptions) :
    Nat → SessionState → SessionState
  | 0, s => s
  | fuel + 1, s =>
    if kMaxRetryContinuousEmpty ≤ s.empty_streak then s
    else runRounds env task options fuel (stepRound env task options s)

/-- The session state at the start of round 0. -/
def initSession (db : Database) : SessionState :=
  { round := 0, empty_streak := 0, best := none, db := db
    cost_model_data := [], batches := [] }

/-- The session state after the tuning loop of `Optimize` finishes. -/
def finalState (env : TuningEnv) (task : TuneTask) (db : Database)
    (options : TuningOptions) : SessionState :=
  runRounds env task options options.num_rounds (initSession db)

/-- Modelled from the spec: the Tuning Result — "the best lowered
function/schedule found, with its measured cost if any candidate was
successfully measured, else the unmodified original function"
(`TuningResult::OptimizedComputeExpr`, not among the sources). -/
structure TuningResultM where
  func : LoweredFunc
  cost : Option Nat
deriving DecidableEq

/-- Modelled from the spec: the error taxonomy visible to the caller —
only configuration errors abort the session (spec section 7). -/
inductive TuningError : Type where
  | configurationError
deriving DecidableEq

/-- Modelled from the spec: `TaskOptimizer::Optimize` (task_optimizer.h line
37, implemented in the missing file) — validate the options before the loop
starts, aborting with a configuration error and no partial result when they
are malformed; otherwise run the session to its termination condition and
return the best-so-far result, degrading to the task's original unscheduled
function when nothing was ever successfully measured. -/
def Optimize (env : TuningEnv) (task : TuneTask) (db : Database)
    (options : TuningOptions) : Except TuningError TuningResultM :=
  if validOptions options then
    Except.ok
      (match (finalState env task db options).best with
       | some (f, c) => { func := f, cost := some c }
       | none => { func := task.func, cost := none })
  else
    Except.error TuningError.configurationError

/-- The consecutive-empty-round counter value at the start of round `n`,
computed directly from the per-round emptiness of the environment. -/
def emptyStreakAt (env : TuningEnv) (task : TuneTask) (options : TuningOptions) :
    Nat → Nat
  | 0 => 0
  | n + 1 =>
    if roundIsEmpty env task options n then emptyStreakAt env task options n + 1
    else 0

/-- Rounds `m`, `m+1` and `m+2` each produced zero valid, measured
candidates. -/
def threeEmptyFrom (env : TuningEnv) (task : TuneTask) (options : TuningOptions)
    (m : Nat) : Prop :=
  roundIsEmpty env task options m = true ∧
    roundIsEmpty env task options (m + 1) = true ∧
    roundIsEmpty env task options (m + 2) = true

/-! ### Concrete instances used by witnesses and counterexamples -/

/-- An environment whose search never proposes anything and whose
measurements always fail. -/
def envAllEmpty : TuningEnv :=
  { search := fun _ => []
    pruneInvalid := fun _ => false
    measureOne := fun _ _ => none }

/-- A concrete task. -/
def taskW : TuneTask :=
  { signature := "matmul_task"
    func := { name := "fn_matmul", args := ["x", "y"], ret_type := "void"
              body := "original_body" }
    target := "x86" }

/-- The empty database. -/
def dbEmpty : Database := fun _ => []

/-- Valid options with two rounds. -/
def optsW : TuningOptions :=
  { num_rounds := 2, population_size := 2, measure_quota_per_round := 1
    mutation_rate := 1 / 10, crossover_rate := 1 / 10, enable_warm_start := true }

/-- Valid options with exactly three rounds. -/
def optsThree : TuningOptions :=
  { num_rounds := 3, population_size := 4, measure_quota_per_round := 2
    mutation_rate := 1 / 10, crossover_rate := 1 / 10, enable_warm_start := false }

/-- Malformed options: zero rounds requested. -/
def optsBad : TuningOptions :=
  { num_rounds := 0, population_size := 2, measure_quota_per_round := 1
    mutation_rate := 1 / 10, crossover_rate := 1 / 10, enable_warm_start := false }

/-- A concrete candidate. -/
def stW : SearchState := { body := "tiled_body", predicted_cost := 3 }

/-- An environment proposing one always-valid candidate each round, measured
successfully at cost 7. -/
def envOne : TuningEnv :=
  { search := fun _ => [stW]
    pruneInvalid := fun _ => false
    measureOne := fun _ _ => some 7 }

/-- The measure input built from `stW` for `taskW`. -/
def inpW : MeasureInput :=
  { task_id := "matmul_task", func := FuncWithUpdatedBody taskW.func "tiled_body" }

/-- A session state that already holds a best-so-far of cost 10. -/
def sessW : SessionState :=
  { round := 0, empty_streak := 0, best := some (taskW.func, 10), db := dbEmpty
    cost_model_data := [], batches := [] }

/-- A database holding one record. -/
def dbOne : Database := fun _ => [("seed_schedule", 5)]

/-- A concrete rank-2 input tensor for the sort witnesses. -/
def tensA : TensorIR :=
  { name := "A", shape := [SExpr.lit 4, SExpr.lit 5], body := SExpr.lit 0 }

/-! ## Theorems -/

/-- C5: `FuncWithUpdatedBody` preserves the function's name, ordered argument
list and return type, and only the body changes (to the candidate body). -/
theorem func_with_updated_body_frame (old_func : LoweredFunc) (body : String) :
    (FuncWithUpdatedBody old_func body).name = old_func.name ∧
    (FuncWithUpdatedBody old_func body).args = old_func.args ∧
    (FuncWithUpdatedBody old_func body).ret_type = old_func.ret_type ∧
    (FuncWithUpdatedBody old_func body).body = body :=
  ⟨rfl, rfl, rfl, rfl⟩

/-- C9: for every one-element input type list, `InferDtypeForArgSort` — also
as installed in the `argsort` op registration — returns exactly `[Int(32)]`,
regardless of the input element type and of the attributes. -/
theorem argsort_inferdtype_int32 (t : CinnType) (attrs : AttrMap) :
    InferDtypeForArgSort [t] attrs = some [IntType 32] ∧
    argsortOp.inferDtype [t] attrs = some [IntType 32] :=
  ⟨rfl, rfl⟩

/-- C10: `set_type` is total, stores its argument in `type_`, and sets the
buffer element type to the matching cinn type for int32, int64, float32,
float64, float16 and bool, and to `cinn_unk_t` for every other type (the
dispatch table `bufferDTypeSpec` written from the claim). -/
theorem set_type_total_dispatch (ten : TensorFW) (type : CinnType) :
    (set_type ten type).type_ = type ∧
    (set_type ten type).buffer_dtype = bufferDTypeSpec type := by
  refine ⟨rfl, ?_⟩
  rcases type with ⟨k, b⟩
  cases k <;>
    simp only [set_type, bufferDTypeSpec, CinnType.is_int, CinnType.is_float,
      CinnType.is_bool, CinnType.is_uint] <;>
    split_ifs <;> simp_all

/-- C7: after `Insert(k, sched, c)`, `Lookup(k)` includes `(sched, c)`; every
pair present in any history before the insert is still present; and the new
history is exactly the old one with `(sched, c)` appended — insert appends,
never overwrites or deletes. -/
theorem database_insert_append (db : Database) (k k2 sched : String) (c : Nat)
    (p : String × Nat) (hp : p ∈ Database.Lookup db k2) :
    (sched, c) ∈ Database.Lookup (Database.Insert db k sched c) k ∧
    p ∈ Database.Lookup (Database.Insert db k sched c) k2 ∧
    Database.Lookup (Database.Insert db k sched c) k =
      Database.Lookup db k ++ [(sched, c)] := by
  refine ⟨?_, ?_, ?_⟩
  · simp [Database.Lookup, Database.Insert]
  · by_cases h : k2 = k
    · subst h
      have hlk : Database.Lookup (Database.Insert db k2 sched c) k2 =
          db k2 ++ [(sched, c)] := by
        simp [Database.Lookup, Database.Insert]
      rw [hlk, List.mem_append]
      exact Or.inl hp
    · simpa [Database.Lookup, Database.Insert, h] using hp
  · simp [Database.Lookup, Database.Insert]

/-- C7 witness: a concrete insert/lookup round trip. -/
theorem database_insert_append_witness :
    ("seed_schedule", 5) ∈ Database.Lookup dbOne "k2" ∧
    (("sched1", 3) ∈ Database.Lookup (Database.Insert dbOne "k1" "sched1" 3) "k1" ∧
      ("seed_schedule", 5) ∈ Database.Lookup (Database.Insert dbOne "k1" "sched1" 3) "k2" ∧
      Database.Lookup (Database.Insert dbOne "k1" "sched1" 3) "k1" =
        Database.Lookup dbOne "k1" ++ [("sched1", 3)]) := by
  have hp : ("seed_schedule", 5) ∈ Database.Lookup dbOne "k2" :=
    List.mem_singleton_self _
  exact ⟨hp, database_insert_append dbOne "k1" "k2" "sched1" 3 ("seed_schedule", 5) hp⟩

/-- C6: `Optimize` raises an error exactly for malformed Tuning Options —
detected before the loop starts, returning no partial result — and for every
behavior of the collaborators (invalid candidates, measurement failures,
exhausted search) a session with valid options returns an ok result. -/
theorem optimize_config_errors_only (env : TuningEnv) (task : TuneTask)
    (db : Database) (options : TuningOptions) :
    (validOptions options = false →
      Optimize env task db options = Except.error TuningError.configurationError) ∧
    (validOptions options = true →
      ∃ r, Optimize env task db options = Except.ok r) := by
  constructor
  · intro h
    unfold Optimize
    rw [if_neg]
    simp [h]
  · intro h
    unfold Optimize
    rw [if_pos h]
    exact ⟨_, rfl⟩

/-- C6 witness: zero rounds is rejected with a configuration error, and the
same session with valid options returns ok even though every measurement
fails. -/
theorem optimize_config_errors_only_witness :
    validOptions optsBad = false ∧
    Optimize envAllEmpty taskW dbEmpty optsBad =
      Except.error TuningError.configurationError ∧
    validOptions optsW = true ∧
    ∃ r, Optimize envAllEmpty taskW dbEmpty optsW = Except.ok r :=
  ⟨rfl, (optimize_config_errors_only envAllEmpty taskW dbEmpty optsBad).1 rfl,
    rfl, (optimize_config_errors_only envAllEmpty taskW dbEmpty optsW).2 rfl⟩

/-- C2: every Measure Input in the measurement batch produced by
`searchOneRound` and handed to the Measurer carries a function that passed
the validity check: `PruneInvalid` reports `false` for it. -/
theorem measure_batch_all_valid (env : TuningEnv) (task : TuneTask)
    (options : TuningOptions) (n : Nat) (inp : MeasureInput)
    (h : inp ∈ roundBatch env task options n) :
    env.pruneInvalid inp.func = false := by
  simp only [roundBatch, searchOneRound] at h
  have h1 := List.take_subset _ _ h
  obtain ⟨st, hst, hinp⟩ := List.mem_map.mp h1
  have h2 := (List.mem_filter.mp hst).2
  rw [← hinp]
  simpa using h2

/-- C2 witness: a concrete round whose one-element batch passes the check. -/
theorem measure_batch_all_valid_witness :
    inpW ∈ roundBatch envOne taskW optsW 0 ∧
    envOne.pruneInvalid inpW.func = false := by
  have h : inpW ∈ roundBatch envOne taskW optsW 0 :=
    show inpW ∈ [inpW] from List.mem_singleton_self inpW
  exact ⟨h, measure_batch_all_valid envOne taskW optsW 0 inpW h⟩

/-- C8: for a negative axis `-rank ≤ a < 0`, `ArgSort` and `Sort` build
exactly the same tensors as for the normalized axis `a + rank`; the
normalized axis is non-negative; and the already-normalized axis that `Sort`
passes to `ArgSort` yields the same `ArgSort` result as the raw axis. -/
theorem sort_negative_axis_normalized (A : TensorIR) (target : Arch)
    (is_ascend : Bool) (name : String) (a : Int)
    (h1 : -(A.shape.length : Int) ≤ a) (h2 : a < 0) :
    ArgSort A target a is_ascend name =
      ArgSort A target (a + A.shape.length) is_ascend name ∧
    SortTensor A target a is_ascend name =
      SortTensor A target (a + A.shape.length) is_ascend name ∧
    0 ≤ normAxis a A.shape.length ∧
    ArgSort A target (normAxis a A.shape.length) is_ascend name =
      ArgSort A target a is_ascend name := by
  have hnorm : normAxis a A.shape.length = normAxis (a + A.shape.length) A.shape.length := by
    unfold normAxis
    rw [if_pos h2, if_neg (by omega)]
  have hpos : 0 ≤ normAxis a A.shape.length := by
    unfold normAxis
    rw [if_pos h2]
    omega
  have hidem : normAxis (normAxis a A.shape.length) A.shape.length =
      normAxis a A.shape.length := by
    rw [hnorm]
    unfold normAxis
    rw [if_neg (by omega)]
  refine ⟨?_, ?_, hpos, ?_⟩
  · cases target <;> simp [ArgSort, hnorm]
  · simp only [SortTensor, hnorm]
  · cases target <;> simp [ArgSort, hidem]

/-- C8 witness: a rank-2 tensor sorted along axis -1 versus axis 1. -/
theorem sort_negative_axis_normalized_witness :
    (-(tensA.shape.length : Int) ≤ -1 ∧ (-1 : Int) < 0) ∧
    (ArgSort tensA Arch.X86 (-1) true "s" =
       ArgSort tensA Arch.X86 (-1 + tensA.shape.length) true "s" ∧
     SortTensor tensA Arch.X86 (-1) true "s" =
       SortTensor tensA Arch.X86 (-1 + tensA.shape.length) true "s" ∧
     0 ≤ normAxis (-1) tensA.shape.length ∧
     ArgSort tensA Arch.X86 (normAxis (-1) tensA.shape.length) true "s" =
       ArgSort tensA Arch.X86 (-1) true "s") :=
  ⟨⟨by norm_num [tensA], by norm_num⟩,
    sort_negative_axis_normalized tensA Arch.X86 true "s" (-1)
      (by norm_num [tensA]) (by norm_num)⟩

/-- The best-so-far of one round step is the old best updated with the
round's minimum-cost success. -/
theorem stepRound_best (env : TuningEnv) (task : TuneTask) (options : TuningOptions)
    (s : SessionState) :
    (stepRound env task options s).best =
      updateBest s.best (minByCost (roundSuccesses env task options s.round)) :=
  rfl

/-- If no round ever succeeds, the loop never acquires a best-so-far. -/
theorem runRounds_best_none (env : TuningEnv) (task : TuneTask)
    (options : TuningOptions)
    (hsucc : ∀ n, roundSuccesses env task options n = []) :
    ∀ (fuel : Nat) (s : SessionState), s.best = none →
      (runRounds env task options fuel s).best = none := by
  intro fuel
  induction fuel with
  | zero =>
    intro s hb
    simpa [runRounds] using hb
  | succ f ih =>
    intro s hb
    rw [runRounds]
    split
    · exact hb
    · apply ih
      rw [stepRound_best, hb, hsucc s.round]
      rfl

/-- C1: with valid options, if no round ever produces a successful
measurement (every candidate pruned or every measurement failed, so every
round's success list is empty), `Optimize` returns ok with the task's
original, unscheduled lowered function and no cost — never an error and
never an empty or undefined result. -/
theorem optimize_graceful_degradation (env : TuningEnv) (task : TuneTask)
    (db : Database) (options : TuningOptions)
    (hopts : validOptions options = true)
    (hfail : ∀ n, roundSuccesses env task options n = []) :
    Optimize env task db options = Except.ok { func := task.func, cost := none } := by
  have hb : (finalState env task db options).best = none :=
    runRounds_best_none env task options hfail options.num_rounds (initSession db) rfl
  unfold Optimize
  rw [if_pos hopts, hb]

/-- C1 witness: a session whose measurements all fail returns the original
function. -/
theorem optimize_graceful_degradation_witness :
    validOptions optsW = true ∧
    (∀ n, roundSuccesses envAllEmpty taskW optsW n = []) ∧
    Optimize envAllEmpty taskW dbEmpty optsW =
      Except.ok { func := taskW.func, cost := none } :=
  ⟨rfl, fun _ => rfl,
    optimize_graceful_degradation envAllEmpty taskW dbEmpty optsW rfl fun _ => rfl⟩

/-- The fold inside `minByCost` returns its accumulator or a list element. -/
theorem foldl_min_choice : ∀ (ps : List (LoweredFunc × Nat)) (p : LoweredFunc × Nat),
    ps.foldl (fun best q => if q.2 < best.2 then q else best) p = p ∨
      ps.foldl (fun best q => if q.2 < best.2 then q else best) p ∈ ps := by
  intro ps
  induction ps with
  | nil => intro p; left; rfl
  | cons q ps ih =>
    intro p
    rw [List.foldl_cons]
    rcases ih (if q.2 < p.2 then q else p) with h | h
    · rw [h]
      by_cases hq : q.2 < p.2
      · right
        rw [if_pos hq]
        exact List.mem_cons_self q ps
      · left
        rw [if_neg hq]
    · right
      exact List.mem_cons_of_mem q h

/-- The minimum-cost success is one of the successes. -/
theorem minByCost_mem (l : List (LoweredFunc × Nat)) (r : LoweredFunc × Nat)
    (h : minByCost l = some r) : r ∈ l := by
  cases l with
  | nil => simp [minByCost] at h
  | cons p ps =>
    rw [minByCost] at h
    have hr := Option.some.inj h
    rcases foldl_min_choice ps p with h2 | h2
    · rw [← hr, h2]
      exact List.mem_cons_self p ps
    · exact List.mem_cons_of_mem p (hr ▸ h2)

/-- One round never increases the best-so-far cost. -/
theorem stepRound_best_le (env : TuningEnv) (task : TuneTask)
    (options : TuningOptions) (s : SessionState) (b : LoweredFunc × Nat)
    (hb : s.best = some b) :
    ∃ b1, (stepRound env task options s).best = some b1 ∧ b1.2 ≤ b.2 := by
  rw [stepRound_best, hb]
  cases hmin : minByCost (roundSuccesses env task options s.round) with
  | none => exact ⟨b, rfl, le_refl _⟩
  | some r =>
    by_cases hr : r.2 < b.2
    · exact ⟨r, by simp [updateBest, hr], le_of_lt hr⟩
    · exact ⟨b, by simp [updateBest, hr], le_refl _⟩

/-- The whole remaining session never increases the best-so-far cost. -/
theorem runRounds_best_le (env : TuningEnv) (task : TuneTask)
    (options : TuningOptions) :
    ∀ (fuel : Nat) (s : SessionState) (b : LoweredFunc × Nat), s.best = some b →
      ∃ b2, (runRounds env task options fuel s).best = some b2 ∧ b2.2 ≤ b.2 := by
  intro fuel
  induction fuel with
  | zero =>
    intro s b hb
    rw [runRounds]
    exact ⟨b, hb, le_refl _⟩
  | succ f ih =>
    intro s b hb
    rw [runRounds]
    split
    · exact ⟨b, hb, le_refl _⟩
    · obtain ⟨b1, hb1, hle1⟩ := stepRound_best_le env task options s b hb
      obtain ⟨b2, hb2, hle2⟩ := ih _ b1 hb1
      exact ⟨b2, hb2, le_trans hle2 hle1⟩

/-- A round that changes an existing best-so-far observed a strictly lower
real cost among its successes. -/
theorem stepRound_best_change (env : TuningEnv) (task : TuneTask)
    (options : TuningOptions) (s : SessionState) (b : LoweredFunc × Nat)
    (hb : s.best = some b)
    (hch : (stepRound env task options s).best ≠ s.best) :
    ∃ p ∈ roundSuccesses env task options s.round, p.2 < b.2 := by
  rw [stepRound_best, hb] at hch
  cases hmin : minByCost (roundSuccesses env task options s.round) with
  | none =>
    rw [hmin] at hch
    exact absurd rfl hch
  | some r =>
    rw [hmin] at hch
    by_cases hr : r.2 < b.2
    · exact ⟨r, minByCost_mem _ r hmin, hr⟩
    · exact absurd (by simp [updateBest, hr]) hch

/-- C4: a session's best-so-far measured cost is monotonically non-increasing
from round to round (both over a single round and over any remaining run of
the loop), and it changes between rounds only when the round observes a real
measured cost strictly lower than the current best-so-far. -/
theorem best_cost_monotone (env : TuningEnv) (task : TuneTask)
    (options : TuningOptions) (s : SessionState) (b : LoweredFunc × Nat)
    (hb : s.best = some b) :
    (∀ fuel, ∃ b2, (runRounds env task options fuel s).best = some b2 ∧ b2.2 ≤ b.2) ∧
    (∃ b1, (stepRound env task options s).best = some b1 ∧ b1.2 ≤ b.2) ∧
    ((stepRound env task options s).best ≠ s.best →
      ∃ p ∈ roundSuccesses env task options s.round, p.2 < b.2) :=
  ⟨fun fuel => runRounds_best_le env task options fuel s b hb,
    stepRound_best_le env task options s b hb,
    stepRound_best_change env task options s b hb⟩

/-- C4 witness: a state with best cost 10 in an environment measuring cost 7. -/
theorem best_cost_monotone_witness :
    sessW.best = some (taskW.func, 10) ∧
    ((∀ fuel, ∃ b2, (runRounds envOne taskW optsW fuel sessW).best = some b2 ∧
        b2.2 ≤ (taskW.func, 10).2) ∧
     (∃ b1, (stepRound envOne taskW optsW sessW).best = some b1 ∧
        b1.2 ≤ (taskW.func, 10).2) ∧
     ((stepRound envOne taskW optsW sessW).best ≠ sessW.best →
        ∃ p ∈ roundSuccesses envOne taskW optsW sessW.round, p.2 < (taskW.func, 10).2)) :=
  ⟨rfl, best_cost_monotone envOne taskW optsW sessW (taskW.func, 10) rfl⟩

/-- The empty-round counter never exceeds the round number. -/
theorem emptyStreakAt_le (env : TuningEnv) (task : TuneTask)
    (options : TuningOptions) : ∀ n, emptyStreakAt env task options n ≤ n := by
  intro n
  induction n with
  | zero => exact Nat.le_refl 0
  | succ k ih =>
    rw [emptyStreakAt]
    split
    · exact Nat.succ_le_succ ih
    · exact Nat.zero_le _

/-- Unfolding one step of the empty-round counter. -/
theorem streak_succ_ge (env : TuningEnv) (task : TuneTask)
    (options : TuningOptions) (n j : Nat) :
    j + 1 ≤ emptyStreakAt env task options (n + 1) ↔
      roundIsEmpty env task options n = true ∧
        j ≤ emptyStreakAt env task options n := by
  rw [emptyStreakAt]
  by_cases h : roundIsEmpty env task options n = true
  · rw [if_pos h]
    simp only [h, true_and]
    omega
  · rw [if_neg h]
    constructor
    · intro hj
      exact absurd hj (by omega)
    · rintro ⟨he, -⟩
      exact absurd he h

/-- A counter value of 3 at round `n` exhibits three consecutive empty rounds
ending right before `n`. -/
theorem streak_three_exists (env : TuningEnv) (task : TuneTask)
    (options : TuningOptions) (n : Nat)
    (h : 3 ≤ emptyStreakAt env task options n) :
    ∃ m, n = m + 3 ∧ threeEmptyFrom env task options m := by
  have hn : 3 ≤ n := le_trans h (emptyStreakAt_le env task options n)
  obtain ⟨m, rfl⟩ : ∃ m, n = m + 3 := ⟨n - 3, by omega⟩
  have h1 : 2 + 1 ≤ emptyStreakAt env task options (m + 2 + 1) := by
    have : m + 2 + 1 = m + 3 := by omega
    rw [this]
    exact h
  have h1a := (streak_succ_ge env task options (m + 2) 2).mp h1
  have h2 : 1 + 1 ≤ emptyStreakAt env task options (m + 1 + 1) := by
    have : m + 1 + 1 = m + 2 := by omega
    rw [this]
    exact h1a.2
  have h2a := (streak_succ_ge env task options (m + 1) 1).mp h2
  have h3a := (streak_succ_ge env task options m 0).mp h2a.2
  exact ⟨m, rfl, h3a.1, h2a.1, h1a.1⟩

/-- Conversely, three consecutive empty rounds from `m` push the counter to 3
at round `m + 3`. -/
theorem streak_of_three_empty (env : TuningEnv) (task : TuneTask)
    (options : TuningOptions) (m : Nat)
    (h : threeEmptyFrom env task options m) :
    3 ≤ emptyStreakAt env task options (m + 3) := by
  obtain ⟨h0, h1, h2⟩ := h
  have e1 : 0 + 1 ≤ emptyStreakAt env task options (m + 1) :=
    (streak_succ_ge env task options m 0).mpr ⟨h0, Nat.zero_le _⟩
  have e2 : 1 + 1 ≤ emptyStreakAt env task options (m + 1 + 1) :=
    (streak_succ_ge env task options (m + 1) 1).mpr ⟨h1, by omega⟩
  have e3 : 2 + 1 ≤ emptyStreakAt env task options (m + 2 + 1) :=
    (streak_succ_ge env task options (m + 2) 2).mpr
      ⟨h2, by
        have : m + 1 + 1 = m + 2 := by omega
        rw [this] at e2
        omega⟩
  have : m + 2 + 1 = m + 3 := by omega
  rw [this] at e3
  exact e3

/-- The loop executes at most `fuel` further rounds. -/
theorem runRounds_round_le (env : TuningEnv) (task : TuneTask)
    (options : TuningOptions) :
    ∀ (fuel : Nat) (s : SessionState),
      (runRounds env task options fuel s).round ≤ s.round + fuel := by
  intro fuel
  induction fuel with
  | zero =>
    intro s
    rw [runRounds]
    omega
  | succ f ih =>
    intro s
    rw [runRounds]
    split
    · omega
    · have h := ih (stepRound env task options s)
      have hs : (stepRound env task options s).round = s.round + 1 := rfl
      omega

/-- Loop characterization: starting from a state in sync with the counter and
with no completed empty window in the past, the loop stops short of its fuel
exactly when three consecutive empty rounds complete strictly inside the
budget. -/
theorem runRounds_early_iff (env : TuningEnv) (task : TuneTask)
    (options : TuningOptions) :
    ∀ (fuel k : Nat) (s : SessionState),
      s.round = k →
      s.empty_streak = emptyStreakAt env task options k →
      emptyStreakAt env task options k < 3 →
      (∀ m, m + 3 ≤ k → ¬ threeEmptyFrom env task options m) →
      ((runRounds env task options fuel s).round < k + fuel ↔
        ∃ m, m + 3 < k + fuel ∧ threeEmptyFrom env task options m) := by
  intro fuel
  induction fuel with
  | zero =>
    intro k s hr hs hlt hP
    rw [runRounds]
    constructor
    · intro h
      rw [hr] at h
      omega
    · rintro ⟨m, hm, hemp⟩
      exact absurd hemp (hP m (by omega))
  | succ f ih =>
    intro k s hr hs hlt hP
    rw [runRounds]
    rw [if_neg (by rw [hs]; simp only [kMaxRetryContinuousEmpty]; omega)]
    have hr1 : (stepRound env task options s).round = k + 1 := by
      show s.round + 1 = k + 1
      omega
    have hs1 : (stepRound env task options s).empty_streak =
        emptyStreakAt env task options (k + 1) := by
      show (if roundIsEmpty env task options s.round then s.empty_streak + 1 else 0) =
        emptyStreakAt env task options (k + 1)
      rw [hr, hs, emptyStreakAt]
    by_cases hcase : 3 ≤ emptyStreakAt env task options (k + 1)
    · obtain ⟨m, hm_eq, hm_emp⟩ := streak_three_exists env task options (k + 1) hcase
      cases f with
      | zero =>
        rw [runRounds]
        rw [hr1]
        constructor
        · intro h
          omega
        · rintro ⟨m2, hm2, hemp2⟩
          exact absurd hemp2 (hP m2 (by omega))
      | succ f2 =>
        rw [runRounds]
        rw [if_pos (by rw [hs1]; simp only [kMaxRetryContinuousEmpty]; omega)]
        rw [hr1]
        constructor
        · intro _
          exact ⟨m, by omega, hm_emp⟩
        · intro _
          omega
    · have hP1 : ∀ m, m + 3 ≤ k + 1 → ¬ threeEmptyFrom env task options m := by
        intro m hm hemp
        rcases Nat.lt_or_ge (m + 3) (k + 1) with hlt2 | hge2
        · exact hP m (by omega) hemp
        · have heq : m + 3 = k + 1 := by omega
          exact hcase (heq ▸ streak_of_three_empty env task options m hemp)
      have hmain := ih (k + 1) (stepRound env task options s) hr1 hs1
        (by omega) hP1
      rw [show k + 1 + f = k + (f + 1) from by omega] at hmain
      exact hmain

/-- C3 counterexample: with three rounds configured and every round empty,
the session runs all three rounds — it does not terminate strictly before
`num_rounds` — even though 3 consecutive executed rounds each produced zero
valid, measured candidates, so the claimed equivalence fails as stated. -/
theorem bounded_rounds_counterexample :
    ¬(((finalState envAllEmpty taskW dbEmpty optsThree).round ≤ optsThree.num_rounds) ∧
      (((finalState envAllEmpty taskW dbEmpty optsThree).round < optsThree.num_rounds) ↔
        ∃ m, m + 3 ≤ (finalState envAllEmpty taskW dbEmpty optsThree).round ∧
          threeEmptyFrom envAllEmpty taskW optsThree m)) := by
  rintro ⟨-, h⟩
  have hround : (finalState envAllEmpty taskW dbEmpty optsThree).round = 3 := rfl
  have hr : ∃ m, m + 3 ≤ (finalState envAllEmpty taskW dbEmpty optsThree).round ∧
      threeEmptyFrom envAllEmpty taskW optsThree m := by
    refine ⟨0, ?_, rfl, rfl, rfl⟩
    rw [hround]
  have hlt := h.mpr hr
  rw [hround] at hlt
  exact absurd hlt (by decide)

/-- C3 (amended): the number of executed rounds never exceeds `num_rounds`,
and the session terminates strictly before reaching `num_rounds` if and only
if 3 consecutive rounds (the policy constant `kMaxRetryContinuousEmpty_`),
completing strictly before round number `num_rounds`, each produced zero
valid, measured candidates. -/
theorem bounded_rounds_amended (env : TuningEnv) (task : TuneTask)
    (db : Database) (options : TuningOptions) :
    (finalState env task db options).round ≤ options.num_rounds ∧
    ((finalState env task db options).round < options.num_rounds ↔
      ∃ m, m + 3 < options.num_rounds ∧ threeEmptyFrom env task options m) := by
  constructor
  · have h := runRounds_round_le env task options options.num_rounds (initSession db)
    have h0 : (initSession db).round = 0 := rfl
    rw [h0] at h
    simpa [finalState] using h
  · have h := runRounds_early_iff env task options options.num_rounds 0
      (initSession db) rfl rfl
      (by rw [show emptyStreakAt env task options 0 = 0 from rfl]; omega)
      (fun m hm => absurd hm (by omega))
    simpa [finalState] using h

end CinnVerify
